import Mathlib

/-!
Shallow embedding of the navigation/control core of the t-pico-c3-embassy
vehicle firmware (src/race.rs, src/configuration.rs, src/vision.rs,
src/trace.rs), together with theorems settling the specification claims.

Machine integers are modeled as Int. Where the Rust code performs i16
arithmetic or an `as i16` / `as u16` cast whose wrapping could matter, the
wrap is made explicit through wrap16 / u16cast. Rust i32 division truncates
toward zero, which is Int.tdiv; Rust division by zero is a panic, modeled by
Option results in the functions where a zero divisor is reachable.
-/

/-- Wrapping cast to i16: reduces an integer into [-32768, 32767]. -/
def wrap16 (x : Int) : Int :=
  (x + 32768) % 65536 - 32768

/-- Cast to u16: reduces an integer into [0, 65535]. -/
def u16cast (x : Int) : Int :=
  x % 65536

theorem wrap16_eq_self (x : Int) (h1 : -32768 ≤ x) (h2 : x ≤ 32767) :
    wrap16 x = x := by
  unfold wrap16
  omega

theorem u16cast_eq_self (x : Int) (h1 : 0 ≤ x) (h2 : x ≤ 65535) :
    u16cast x = x := by
  unfold u16cast
  omega

/-! ## Angle (src/race.rs)

The Rust Angle is a struct holding a raw i32 degree count. Constants are
built without normalization; From<i32> normalizes. -/

structure Angle where
  value : Int
deriving DecidableEq, Repr

/-- First while loop of Angle::normalize: subtract 360 while the value
exceeds 180. -/
def subLoop (v : Int) : Int :=
  if v > 180 then subLoop (v - 360) else v
termination_by (v + 180).toNat
decreasing_by
  simp only [Int.lt_toNat, Int.toNat_lt]
  omega

/-- Second while loop of Angle::normalize: add 360 while the value is below
-180. -/
def addLoop (v : Int) : Int :=
  if v < -180 then addLoop (v + 360) else v
termination_by (180 - v).toNat
decreasing_by
  simp only [Int.lt_toNat, Int.toNat_lt]
  omega

/-- Angle::normalize: the two sequential while loops of the source. -/
def Angle.normalize (a : Angle) : Angle :=
  ⟨addLoop (subLoop a.value)⟩

/-- From<i32> for Angle. -/
def Angle.fromInt (v : Int) : Angle :=
  Angle.normalize ⟨v⟩

/-- Angle::from_imu_value: divide by 100 (i32 truncating division) and clamp
to [-180, 180]. -/
def Angle.from_imu_value (imu_value : Int) : Angle :=
  ⟨min (max (Int.tdiv imu_value 100) (-180)) 180⟩

def Angle.ZERO : Angle := ⟨0⟩
def Angle.R90 : Angle := ⟨90⟩
def Angle.L90 : Angle := ⟨-90⟩
def Angle.BACK : Angle := ⟨180⟩
def Angle.L45 : Angle := ⟨-45⟩
def Angle.R45 : Angle := ⟨45⟩
def Angle.R100 : Angle := ⟨100⟩
def Angle.L100 : Angle := ⟨-100⟩
def Angle.SMALL : Angle := ⟨5⟩
def Angle.SLL : Angle := ⟨-60⟩
def Angle.SL : Angle := ⟨-30⟩
def Angle.SC : Angle := ⟨0⟩
def Angle.SR : Angle := ⟨30⟩
def Angle.SRR : Angle := ⟨60⟩
def Angle.SHALF : Angle := ⟨15⟩
def Angle.TILT_ALERT : Angle := ⟨45⟩
def Angle.MAX_STEER : Angle := ⟨35⟩
def Angle.MIN_STEER : Angle := ⟨-35⟩

/-- Angle addition: adds raw values and normalizes (ops::Add). -/
def Angle.add (a b : Angle) : Angle :=
  Angle.fromInt (a.value + b.value)

/-- Angle subtraction: subtracts raw values and normalizes (ops::Sub). -/
def Angle.sub (a b : Angle) : Angle :=
  Angle.fromInt (a.value - b.value)

/-- Angle negation: negates the raw value without normalizing (ops::Neg). -/
def Angle.neg (a : Angle) : Angle :=
  ⟨-a.value⟩

/-- Angle::abs. -/
def Angle.abs (a : Angle) : Angle :=
  ⟨|a.value|⟩

/-- Ord::min for Angle (the derived order compares the raw value). -/
def Angle.amin (a b : Angle) : Angle :=
  if a.value ≤ b.value then a else b

/-- Ord::max for Angle (the derived order compares the raw value). -/
def Angle.amax (a b : Angle) : Angle :=
  if b.value ≤ a.value then a else b

/-! ## Configuration store (src/configuration.rs) -/

/-- The closed ordered enumeration of tunable parameters, with the
non-selectable End sentinel last (repr usize 0..25). -/
inductive RaceConfigEntry where
  | MaxSpeed
  | MinSpeed
  | SteerBias
  | SafeAngle
  | BackSpeed
  | BackTime
  | SprintSpeed
  | SprintTime
  | AlertDistanceCenter
  | AlertDistanceSide30
  | AlertDistanceSide60
  | BackDistanceCenter
  | BackDistanceSide30
  | BackDistanceSide60
  | SlopeDistanceDelta
  | ClimbingSpeed
  | ClimbingAngle
  | ClimbingIgnore
  | StillnessDelta
  | StillnessTime
  | UseStillness
  | InversionTime
  | ClimbDirection
  | UseClimbDirection
  | UseColorInversion
  | End
deriving DecidableEq, Repr, Fintype

/-- The usize discriminant of an entry (Into<usize>, the repr value). -/
def RaceConfigEntry.index : RaceConfigEntry → Nat
  | .MaxSpeed => 0
  | .MinSpeed => 1
  | .SteerBias => 2
  | .SafeAngle => 3
  | .BackSpeed => 4
  | .BackTime => 5
  | .SprintSpeed => 6
  | .SprintTime => 7
  | .AlertDistanceCenter => 8
  | .AlertDistanceSide30 => 9
  | .AlertDistanceSide60 => 10
  | .BackDistanceCenter => 11
  | .BackDistanceSide30 => 12
  | .BackDistanceSide60 => 13
  | .SlopeDistanceDelta => 14
  | .ClimbingSpeed => 15
  | .ClimbingAngle => 16
  | .ClimbingIgnore => 17
  | .StillnessDelta => 18
  | .StillnessTime => 19
  | .UseStillness => 20
  | .InversionTime => 21
  | .ClimbDirection => 22
  | .UseClimbDirection => 23
  | .UseColorInversion => 24
  | .End => 25

def RACE_CONFIG_ENTRY_START : Nat := 0

def RACE_CONFIG_ENTRY_END : Nat := RaceConfigEntry.End.index

/-- The entry whose discriminant is the given value below 26 (the inverse of
the repr transmute; values 26 and beyond cannot arise). -/
def RaceConfigEntry.ofIndex : Nat → RaceConfigEntry
  | 0 => .MaxSpeed
  | 1 => .MinSpeed
  | 2 => .SteerBias
  | 3 => .SafeAngle
  | 4 => .BackSpeed
  | 5 => .BackTime
  | 6 => .SprintSpeed
  | 7 => .SprintTime
  | 8 => .AlertDistanceCenter
  | 9 => .AlertDistanceSide30
  | 10 => .AlertDistanceSide60
  | 11 => .BackDistanceCenter
  | 12 => .BackDistanceSide30
  | 13 => .BackDistanceSide60
  | 14 => .SlopeDistanceDelta
  | 15 => .ClimbingSpeed
  | 16 => .ClimbingAngle
  | 17 => .ClimbingIgnore
  | 18 => .StillnessDelta
  | 19 => .StillnessTime
  | 20 => .UseStillness
  | 21 => .InversionTime
  | 22 => .ClimbDirection
  | 23 => .UseClimbDirection
  | 24 => .UseColorInversion
  | _ => .End

/-- From<usize> for RaceConfigEntry: out-of-range values fall back to the
start entry. -/
def RaceConfigEntry.fromUsize (value : Nat) : RaceConfigEntry :=
  RaceConfigEntry.ofIndex
    (if value < RACE_CONFIG_ENTRY_END then value else RACE_CONFIG_ENTRY_START)

/-- RaceConfigEntry::start. -/
def RaceConfigEntry.start : RaceConfigEntry :=
  RaceConfigEntry.ofIndex 0

/-- RaceConfigEntry::end. -/
def RaceConfigEntry.stop : RaceConfigEntry :=
  RaceConfigEntry.End

/-- RaceConfigEntry::prev: from start wrap to the predecessor of End. -/
def RaceConfigEntry.prev (e : RaceConfigEntry) : RaceConfigEntry :=
  let index := if e ≠ RaceConfigEntry.start then e.index
               else RaceConfigEntry.stop.index
  RaceConfigEntry.fromUsize (index - 1)

/-- RaceConfigEntry::next: skip the End sentinel back to start. -/
def RaceConfigEntry.next (e : RaceConfigEntry) : RaceConfigEntry :=
  let n := RaceConfigEntry.fromUsize (e.index + 1)
  if n = RaceConfigEntry.stop then RaceConfigEntry.start else n

/-- RaceConfigEntry::min. -/
def RaceConfigEntry.min : RaceConfigEntry → Int
  | .MaxSpeed => 2000
  | .MinSpeed => 1000
  | .SteerBias => 0
  | .SafeAngle => 0
  | .BackSpeed => 2000
  | .BackTime => 100
  | .SprintSpeed => 2000
  | .SprintTime => 0
  | .AlertDistanceCenter => 200
  | .AlertDistanceSide30 => 200
  | .AlertDistanceSide60 => 200
  | .BackDistanceCenter => 25
  | .BackDistanceSide30 => 25
  | .BackDistanceSide60 => 25
  | .SlopeDistanceDelta => 50
  | .ClimbingSpeed => 2000
  | .ClimbingAngle => 5
  | .ClimbingIgnore => 0
  | .StillnessDelta => 0
  | .StillnessTime => 0
  | .UseStillness => 0
  | .InversionTime => 100
  | .ClimbDirection => -180
  | .UseClimbDirection => 0
  | .UseColorInversion => 0
  | .End => 0

/-- RaceConfigEntry::max. -/
def RaceConfigEntry.max : RaceConfigEntry → Int
  | .MaxSpeed => 10000
  | .MinSpeed => 9000
  | .SteerBias => 20
  | .SafeAngle => 35
  | .BackSpeed => 10000
  | .BackTime => 1000
  | .SprintSpeed => 10000
  | .SprintTime => 3000
  | .AlertDistanceCenter => 500
  | .AlertDistanceSide30 => 500
  | .AlertDistanceSide60 => 500
  | .BackDistanceCenter => 400
  | .BackDistanceSide30 => 400
  | .BackDistanceSide60 => 400
  | .SlopeDistanceDelta => 300
  | .ClimbingSpeed => 10000
  | .ClimbingAngle => 25
  | .ClimbingIgnore => 10
  | .StillnessDelta => 100
  | .StillnessTime => 100
  | .UseStillness => 1
  | .InversionTime => 1000
  | .ClimbDirection => 180
  | .UseClimbDirection => 1
  | .UseColorInversion => 1
  | .End => 1

/-- RaceConfigEntry::step. -/
def RaceConfigEntry.step : RaceConfigEntry → Int
  | .MaxSpeed => 500
  | .MinSpeed => 500
  | .SteerBias => 1
  | .SafeAngle => 1
  | .BackSpeed => 500
  | .BackTime => 10
  | .SprintSpeed => 500
  | .SprintTime => 10
  | .AlertDistanceCenter => 25
  | .AlertDistanceSide30 => 25
  | .AlertDistanceSide60 => 25
  | .BackDistanceCenter => 25
  | .BackDistanceSide30 => 25
  | .BackDistanceSide60 => 25
  | .SlopeDistanceDelta => 10
  | .ClimbingSpeed => 500
  | .ClimbingAngle => 1
  | .ClimbingIgnore => 1
  | .StillnessDelta => 1
  | .StillnessTime => 1
  | .UseStillness => 1
  | .InversionTime => 10
  | .ClimbDirection => 90
  | .UseClimbDirection => 1
  | .UseColorInversion => 1
  | .End => 1

/-! ## Laser side positions (src/vision.rs) -/

def NUM_LASER_POSITIONS : Nat := 5
def CENTER_LASER : Nat := 2
def LASER_OVERFLOW : Int := 1200

def LILL : Nat := 0
def LIL : Nat := 1
def LIC : Nat := 2
def LIR : Nat := 3
def LIRR : Nat := 4

inductive LaserSidePosition where
  | Center
  | Side30
  | Side60
deriving DecidableEq, Repr, Fintype

/-- LaserSidePosition::physical_index: which of the 8 physical channels
backs this logical position (upper or lower sensor of the pair). -/
def LaserSidePosition.physical_index
    (p : LaserSidePosition) (sign : Int) (upper : Bool) : Nat :=
  if upper then
    match p with
    | .Center => 2
    | .Side30 => if sign > 0 then 3 else 1
    | .Side60 => if sign > 0 then 5 else 4
  else
    match p with
    | .Center => 7
    | .Side30 => if sign > 0 then 0 else 6
    | .Side60 => if sign > 0 then 5 else 4

/-! ## RaceConfig (src/configuration.rs) -/

/-- The runtime configuration store: one i16 per real entry. -/
structure RaceConfig where
  max_speed : Int
  min_speed : Int
  steer_bias : Int
  safe_angle : Int
  back_speed : Int
  back_time : Int
  sprint_speed : Int
  sprint_time : Int
  alert_distance_center : Int
  alert_distance_side_30 : Int
  alert_distance_side_60 : Int
  back_distance_center : Int
  back_distance_side_30 : Int
  back_distance_side_60 : Int
  slope_distance_delta : Int
  climbing_speed : Int
  climbing_angle : Int
  climbing_ignore : Int
  stillness_delta : Int
  stillness_time : Int
  use_stillness : Int
  inversion_time : Int
  climb_direction : Int
  use_climb_direction : Int
  use_color_inversion : Int

/-- RaceConfig::init, the compile-time default configuration. -/
def RaceConfig.init : RaceConfig where
  max_speed := 3900
  min_speed := 3600
  steer_bias := 0
  safe_angle := 10
  back_speed := 5000
  back_time := 100
  sprint_speed := 6000
  sprint_time := 100
  alert_distance_center := 380
  alert_distance_side_30 := 190
  alert_distance_side_60 := 150
  back_distance_center := 80
  back_distance_side_30 := 60
  back_distance_side_60 := 50
  slope_distance_delta := 150
  climbing_speed := 8000
  climbing_angle := 15
  climbing_ignore := 3
  stillness_delta := 0
  stillness_time := 500
  use_stillness := 1
  inversion_time := 750
  climb_direction := 0
  use_climb_direction := 1
  use_color_inversion := 1

/-- RaceConfig::alert_distance, a u16 (as u16 cast of the i16 field). -/
def RaceConfig.alert_distance (c : RaceConfig) (p : LaserSidePosition) : Int :=
  match p with
  | .Center => u16cast c.alert_distance_center
  | .Side30 => u16cast c.alert_distance_side_30
  | .Side60 => u16cast c.alert_distance_side_60

/-- RaceConfig::back_distance, a u16 (as u16 cast of the i16 field). -/
def RaceConfig.back_distance (c : RaceConfig) (p : LaserSidePosition) : Int :=
  match p with
  | .Center => u16cast c.back_distance_center
  | .Side30 => u16cast c.back_distance_side_30
  | .Side60 => u16cast c.back_distance_side_60

/-- RaceConfig::climb_power_boost. The Rust division panics when
pitch_range is zero, hence the Option result. All intermediate arithmetic
is i32; the final value is cast back to i16 (wrap16). -/
def RaceConfig.climb_power_boost (c : RaceConfig) (pitch : Angle) :
    Option Int :=
  if pitch.value ≤ Angle.ZERO.value then
    some 0
  else
    let boost_range := wrap16 (c.climbing_speed - c.max_speed)
    let pitch_range := wrap16 (c.climbing_angle - c.climbing_ignore)
    let pitch_delta := max (min (pitch.value - c.climbing_ignore) pitch_range) 0
    if pitch_range = 0 then none
    else
      let boost := Int.tdiv (pitch_delta * boost_range) pitch_range
      some (wrap16 (min boost boost_range))

/-- RaceConfig::turn_speed. The Rust division panics when steer_range is
zero (safe_angle equal to MAX_STEER), hence the Option result. -/
def RaceConfig.turn_speed (c : RaceConfig) (steer : Angle) : Option Int :=
  let safe_angle := c.safe_angle
  let steer := min (max steer.value (-Angle.MAX_STEER.value)) Angle.MAX_STEER.value
  let speed_range := wrap16 (c.max_speed - c.min_speed)
  let steer_range := Angle.MAX_STEER.value - safe_angle
  let steer_delta :=
    if steer < -safe_angle then -(steer + safe_angle)
    else if steer > safe_angle then steer - safe_angle
    else 0
  if steer_range = 0 then none
  else
    let speed_delta := wrap16 (Int.tdiv (steer_delta * speed_range) steer_range)
    some (wrap16 (c.max_speed - speed_delta))

/-- RaceConfig::detect_climb. -/
def RaceConfig.detect_climb (c : RaceConfig) (pitch : Angle) : Bool :=
  let climbing_threshold := Angle.fromInt (Int.tdiv (c.climbing_angle * 2) 3)
  pitch.value ≥ climbing_threshold.value

/-- RaceConfig::climb_direction (the derived Angle). -/
def RaceConfig.climb_direction_angle (c : RaceConfig) : Angle :=
  Angle.fromInt c.climb_direction

/-- RaceConfig::use_climb_direction (the derived Bool). -/
def RaceConfig.use_climb_direction_flag (c : RaceConfig) : Bool :=
  c.use_climb_direction ≠ 0

/-- RaceConfig::get. -/
def RaceConfig.get (c : RaceConfig) : RaceConfigEntry → Int
  | .MaxSpeed => c.max_speed
  | .MinSpeed => c.min_speed
  | .SteerBias => c.steer_bias
  | .SafeAngle => c.safe_angle
  | .BackSpeed => c.back_speed
  | .BackTime => c.back_time
  | .SprintSpeed => c.sprint_speed
  | .SprintTime => c.sprint_time
  | .AlertDistanceCenter => c.alert_distance_center
  | .AlertDistanceSide30 => c.alert_distance_side_30
  | .AlertDistanceSide60 => c.alert_distance_side_60
  | .BackDistanceCenter => c.back_distance_center
  | .BackDistanceSide30 => c.back_distance_side_30
  | .BackDistanceSide60 => c.back_distance_side_60
  | .SlopeDistanceDelta => c.slope_distance_delta
  | .ClimbingSpeed => c.climbing_speed
  | .ClimbingAngle => c.climbing_angle
  | .ClimbingIgnore => c.climbing_ignore
  | .StillnessDelta => c.stillness_delta
  | .StillnessTime => c.stillness_time
  | .UseStillness => c.use_stillness
  | .InversionTime => c.inversion_time
  | .ClimbDirection => c.climb_direction
  | .UseClimbDirection => c.use_climb_direction
  | .UseColorInversion => c.use_color_inversion
  | .End => 0

/-- RaceConfig::set (setting End is a no-op). -/
def RaceConfig.set (c : RaceConfig) (e : RaceConfigEntry) (value : Int) :
    RaceConfig :=
  match e with
  | .MaxSpeed => { c with max_speed := value }
  | .MinSpeed => { c with min_speed := value }
  | .SteerBias => { c with steer_bias := value }
  | .SafeAngle => { c with safe_angle := value }
  | .BackSpeed => { c with back_speed := value }
  | .BackTime => { c with back_time := value }
  | .SprintSpeed => { c with sprint_speed := value }
  | .SprintTime => { c with sprint_time := value }
  | .AlertDistanceCenter => { c with alert_distance_center := value }
  | .AlertDistanceSide30 => { c with alert_distance_side_30 := value }
  | .AlertDistanceSide60 => { c with alert_distance_side_60 := value }
  | .BackDistanceCenter => { c with back_distance_center := value }
  | .BackDistanceSide30 => { c with back_distance_side_30 := value }
  | .BackDistanceSide60 => { c with back_distance_side_60 := value }
  | .SlopeDistanceDelta => { c with slope_distance_delta := value }
  | .ClimbingSpeed => { c with climbing_speed := value }
  | .ClimbingAngle => { c with climbing_angle := value }
  | .ClimbingIgnore => { c with climbing_ignore := value }
  | .StillnessDelta => { c with stillness_delta := value }
  | .StillnessTime => { c with stillness_time := value }
  | .UseStillness => { c with use_stillness := value }
  | .InversionTime => { c with inversion_time := value }
  | .ClimbDirection => { c with climb_direction := value }
  | .UseClimbDirection => { c with use_climb_direction := value }
  | .UseColorInversion => { c with use_color_inversion := value }
  | .End => c

/-- RaceConfig::inc: add the entry step (i16 add, made explicit by wrap16),
clamp to the entry max, store and return the value. -/
def RaceConfig.inc (c : RaceConfig) (e : RaceConfigEntry) : RaceConfig × Int :=
  let value := min (wrap16 (c.get e + e.step)) e.max
  (c.set e value, value)

/-- RaceConfig::dec: subtract the entry step (i16 sub, made explicit by
wrap16), clamp to the entry min, store and return the value. -/
def RaceConfig.dec (c : RaceConfig) (e : RaceConfigEntry) : RaceConfig × Int :=
  let value := max (wrap16 (c.get e - e.step)) e.min
  (c.set e value, value)

/-! ## Laser status classification (src/vision.rs) -/

inductive LaserStatus where
  | Back
  | Alert
  | Regular
  | Overflow
deriving DecidableEq, Repr

/-- LaserStatus::from_value: classify a u16 reading against the per-position
thresholds, overflow first, with strict comparisons. -/
def LaserStatus.from_value (value : Int) (position : LaserSidePosition)
    (config : RaceConfig) : LaserStatus :=
  if value ≥ LASER_OVERFLOW then .Overflow
  else if value > config.alert_distance position then .Regular
  else if value > config.back_distance position then .Alert
  else .Back

/-- LaserStatus::is_ok. -/
def LaserStatus.is_ok : LaserStatus → Bool
  | .Back => false
  | .Alert => false
  | .Regular => true
  | .Overflow => true

/-! ## Claim C1: threshold partition of LaserStatus::from_value -/

/-- C1 counterexample: the claim says back_distance ≤ value < alert_distance
gives Alert, but at the default configuration a center reading equal to the
back distance (80) is classified Back, because the code compares with strict
greater-than. -/
theorem C1_counterexample :
    RaceConfig.init.back_distance .Center ≤ 80 ∧
    (80 : Int) < RaceConfig.init.alert_distance .Center ∧
    LaserStatus.from_value 80 .Center RaceConfig.init ≠ .Alert := by
  decide

/-- C1 amended: for every configuration and position with ordered thresholds
(back_distance ≤ alert_distance < 1200), from_value partitions the reading
with the threshold values themselves falling in the more dangerous class:
value ≤ back_distance gives Back; back_distance < value ≤ alert_distance
gives Alert; alert_distance < value < 1200 gives Regular; value ≥ 1200 gives
Overflow. -/
theorem C1_from_value_partition (c : RaceConfig) (p : LaserSidePosition)
    (v : Int)
    (hba : c.back_distance p ≤ c.alert_distance p)
    (ha : c.alert_distance p < LASER_OVERFLOW) :
    (v ≤ c.back_distance p → LaserStatus.from_value v p c = .Back) ∧
    (c.back_distance p < v → v ≤ c.alert_distance p →
      LaserStatus.from_value v p c = .Alert) ∧
    (c.alert_distance p < v → v < LASER_OVERFLOW →
      LaserStatus.from_value v p c = .Regular) ∧
    (LASER_OVERFLOW ≤ v → LaserStatus.from_value v p c = .Overflow) := by
  unfold LaserStatus.from_value LASER_OVERFLOW at *
  refine ⟨fun h1 => ?_, fun h1 h2 => ?_, fun h1 h2 => ?_, fun h1 => ?_⟩ <;>
    split_ifs <;> first | rfl | omega

/-- C1 witness: at the default configuration a center reading of 100 lies
strictly between the back and alert distances and is classified Alert. -/
theorem C1_witness :
    RaceConfig.init.back_distance .Center ≤ RaceConfig.init.alert_distance .Center ∧
    LaserStatus.from_value 100 .Center RaceConfig.init = .Alert :=
  ⟨by decide,
    (C1_from_value_partition RaceConfig.init .Center 100 (by decide)
      (by decide)).2.1 (by decide) (by decide)⟩

/-! ## Angle normalization lemmas -/

theorem subLoop_le (v : Int) : subLoop v ≤ 180 := by
  induction v using subLoop.induct with
  | case1 v h ih => rw [subLoop]; simpa [h] using ih
  | case2 v h => rw [subLoop]; simp [h]; omega

theorem subLoop_ge (v : Int) (h0 : -180 ≤ v) : -180 ≤ subLoop v := by
  induction v using subLoop.induct with
  | case1 v h ih => rw [subLoop]; simp [h]; exact ih (by omega)
  | case2 v h => rw [subLoop]; simp [h]; omega

theorem subLoop_emod (v : Int) : subLoop v % 360 = v % 360 := by
  induction v using subLoop.induct with
  | case1 v h ih => rw [subLoop]; simp [h]; omega
  | case2 v h => rw [subLoop]; simp [h]

theorem addLoop_ge (v : Int) : -180 ≤ addLoop v := by
  induction v using addLoop.induct with
  | case1 v h ih => rw [addLoop]; simpa [h] using ih
  | case2 v h => rw [addLoop]; simp [h]; omega

theorem addLoop_le (v : Int) (h0 : v ≤ 180) : addLoop v ≤ 180 := by
  induction v using addLoop.induct with
  | case1 v h ih => rw [addLoop]; simp [h]; exact ih (by omega)
  | case2 v h => rw [addLoop]; simp [h]; omega

theorem addLoop_emod (v : Int) : addLoop v % 360 = v % 360 := by
  induction v using addLoop.induct with
  | case1 v h ih => rw [addLoop]; simp [h]; omega
  | case2 v h => rw [addLoop]; simp [h]

theorem fromInt_range (v : Int) :
    -180 ≤ (Angle.fromInt v).value ∧ (Angle.fromInt v).value ≤ 180 := by
  unfold Angle.fromInt Angle.normalize
  exact ⟨addLoop_ge _, addLoop_le _ (subLoop_le v)⟩

theorem fromInt_emod (v : Int) : (Angle.fromInt v).value % 360 = v % 360 := by
  unfold Angle.fromInt Angle.normalize
  rw [addLoop_emod, subLoop_emod]

theorem fromInt_small (v : Int) (h1 : -180 ≤ v) (h2 : v ≤ 180) :
    Angle.fromInt v = ⟨v⟩ := by
  unfold Angle.fromInt Angle.normalize
  dsimp only
  rw [subLoop, if_neg (by omega), addLoop, if_neg (by omega)]

/-! ## Claim C4: Angle normalization range and periodicity -/

/-- C4 counterexample: Angle::from(-180) has value -180, which is outside
the claimed half-open interval (-180, 180], and adding 360 changes the
normalized value (from(180) = 180), refuting exact periodicity. -/
theorem C4_counterexample :
    (Angle.fromInt (-180)).value = -180 ∧
    ¬ (-180 < (Angle.fromInt (-180)).value) ∧
    (Angle.fromInt (-180 + 360 * 1)).value ≠ (Angle.fromInt (-180)).value := by
  have h1 : Angle.fromInt (-180) = ⟨-180⟩ := by
    unfold Angle.fromInt Angle.normalize
    rw [subLoop, addLoop]
    norm_num
  have h2 : Angle.fromInt (-180 + 360 * 1) = ⟨180⟩ := by
    unfold Angle.fromInt Angle.normalize
    norm_num
    rw [subLoop, addLoop]
    norm_num
  rw [h1, h2]
  norm_num

/-- C4 amended: Angle::from(v).value() lies in the closed interval
[-180, 180] (the endpoint -180 is reachable, e.g. from -180 itself); the
normalized value is always congruent to v modulo 360; and exact
360-periodicity holds whenever the residue of v is not the boundary residue
180 mod 360. -/
theorem C4_angle_normalization (v k : Int) :
    (-180 ≤ (Angle.fromInt v).value ∧ (Angle.fromInt v).value ≤ 180) ∧
    (Angle.fromInt (v + 360 * k)).value % 360 = (Angle.fromInt v).value % 360 ∧
    (v % 360 ≠ 180 → Angle.fromInt (v + 360 * k) = Angle.fromInt v) := by
  have hr1 := fromInt_range v
  have hr2 := fromInt_range (v + 360 * k)
  have hm1 := fromInt_emod v
  have hm2 := fromInt_emod (v + 360 * k)
  have hshift : (v + 360 * k) % 360 = v % 360 := by
    omega
  refine ⟨hr1, by rw [hm1, hm2, hshift], fun hne => ?_⟩
  have : (Angle.fromInt (v + 360 * k)).value = (Angle.fromInt v).value := by
    omega
  cases hA : Angle.fromInt (v + 360 * k)
  cases hB : Angle.fromInt v
  simp_all

/-- C4 witness: a concrete instance of the amended theorem at v = -200,
k = 3: the normalized value is in range and unchanged by adding 1080. -/
theorem C4_witness :
    (-200 : Int) % 360 ≠ 180 ∧
    Angle.fromInt (-200 + 360 * 3) = Angle.fromInt (-200) :=
  ⟨by decide, (C4_angle_normalization (-200) 3).2.2 (by decide)⟩

/-! ## Claim C3: configuration bounds invariant under inc/dec -/

/-- Every entry value of the configuration lies within its [min, max]. -/
def RaceConfig.InBounds (c : RaceConfig) : Prop :=
  ∀ e : RaceConfigEntry, e.min ≤ c.get e ∧ c.get e ≤ e.max

instance (c : RaceConfig) : Decidable c.InBounds :=
  inferInstanceAs
    (Decidable (∀ e : RaceConfigEntry, e.min ≤ c.get e ∧ c.get e ≤ e.max))

/-- Apply a finite sequence of inc (true) / dec (false) calls. -/
def RaceConfig.applyOps (c : RaceConfig) :
    List (Bool × RaceConfigEntry) → RaceConfig
  | [] => c
  | (b, e) :: rest =>
      RaceConfig.applyOps (if b then (c.inc e).1 else (c.dec e).1) rest

theorem entry_min_le_max (e : RaceConfigEntry) : e.min ≤ e.max := by
  cases e <;> decide

theorem entry_step_bounds (e : RaceConfigEntry) :
    1 ≤ e.step ∧ e.step ≤ 500 := by
  cases e <;> decide

theorem entry_range_small (e : RaceConfigEntry) :
    -180 ≤ e.min ∧ e.max ≤ 10000 := by
  cases e <;> decide

theorem InBounds_set (c : RaceConfig) (e : RaceConfigEntry) (v : Int)
    (hmin : e.min ≤ v) (hmax : v ≤ e.max) (h : c.InBounds) :
    (c.set e v).InBounds := by
  intro e'
  have h' := h e'
  cases e <;> cases e' <;> first | exact h' | exact ⟨hmin, hmax⟩

theorem InBounds_inc (c : RaceConfig) (e : RaceConfigEntry)
    (h : c.InBounds) : (c.inc e).1.InBounds := by
  have h1 := h e
  have h2 := entry_min_le_max e
  have h3 := entry_step_bounds e
  have h4 := entry_range_small e
  unfold RaceConfig.inc
  apply InBounds_set _ _ _ _ _ h
  · rw [wrap16_eq_self _ (by omega) (by omega)]
    rw [le_min_iff]
    omega
  · exact min_le_right _ _

theorem InBounds_dec (c : RaceConfig) (e : RaceConfigEntry)
    (h : c.InBounds) : (c.dec e).1.InBounds := by
  have h1 := h e
  have h2 := entry_min_le_max e
  have h3 := entry_step_bounds e
  have h4 := entry_range_small e
  unfold RaceConfig.dec
  apply InBounds_set _ _ _ _ _ h
  · exact le_max_right _ _
  · rw [wrap16_eq_self _ (by omega) (by omega)]
    rw [max_le_iff]
    omega

/-- C3 counterexample: the claim fails already for the empty call sequence,
because the default configuration itself is out of bounds: the default
alert_distance_side_30 is 190, below its declared minimum 200. -/
theorem C3_counterexample :
    (RaceConfig.applyOps RaceConfig.init []).get .AlertDistanceSide30 = 190 ∧
    RaceConfigEntry.min .AlertDistanceSide30 = 200 ∧
    ¬ (RaceConfigEntry.min .AlertDistanceSide30 ≤
        (RaceConfig.applyOps RaceConfig.init []).get .AlertDistanceSide30) := by
  refine ⟨rfl, rfl, by decide⟩

/-- C3 amended: starting from any configuration whose entries all lie within
their [min, max] bounds (which the default-initialized one does not, its
alert_distance_side_30, alert_distance_side_60 and stillness_time defaults
being out of range), every finite sequence of inc and dec calls keeps every
entry within [min, max]. -/
theorem C3_bounds_invariant (c : RaceConfig) (h : c.InBounds)
    (ops : List (Bool × RaceConfigEntry)) :
    (c.applyOps ops).InBounds := by
  induction ops generalizing c with
  | nil => exact h
  | cons op rest ih =>
      obtain ⟨b, e⟩ := op
      unfold RaceConfig.applyOps
      cases b with
      | true => exact ih _ (InBounds_inc c e h)
      | false => exact ih _ (InBounds_dec c e h)

/-- C3 witness: a concrete in-bounds configuration (the default with its
three out-of-range fields clamped into range) stays in bounds after one inc
and one dec. -/
theorem C3_witness :
    RaceConfig.InBounds (RaceConfig.applyOps
      { RaceConfig.init with
          alert_distance_side_30 := 200,
          alert_distance_side_60 := 200,
          stillness_time := 100 }
      [(true, .MaxSpeed), (false, .SafeAngle)]) :=
  C3_bounds_invariant _ (by decide) _

/-! ## Claims C5 and C8: derived speed curves -/

/-- The default configuration with its three out-of-range fields clamped
into range, used as a concrete in-bounds configuration. -/
def boundedInit : RaceConfig :=
  { RaceConfig.init with
      alert_distance_side_30 := 200,
      alert_distance_side_60 := 200,
      stillness_time := 100 }

theorem tdiv_natAbs_le (d s r : Int) (h1 : 0 ≤ d) (h2 : d ≤ r)
    (h3 : 0 < r) : (Int.tdiv (d * s) r).natAbs ≤ s.natAbs := by
  rw [Int.natAbs_tdiv, Int.natAbs_mul]
  calc d.natAbs * s.natAbs / r.natAbs
      ≤ r.natAbs * s.natAbs / r.natAbs :=
        Nat.div_le_div_right (Nat.mul_le_mul_right _ (by omega))
    _ = s.natAbs := Nat.mul_div_cancel_left _ (by omega)

theorem tdiv_mul_le (pd pr br : Int) (h1 : 0 ≤ pd) (h2 : pd ≤ pr)
    (h3 : 0 < pr) (h4 : 0 ≤ br) : Int.tdiv (pd * br) pr ≤ br := by
  rw [Int.tdiv_eq_ediv (by positivity) (le_of_lt h3)]
  calc pd * br / pr ≤ pr * br / pr :=
        Int.ediv_le_ediv h3 (mul_le_mul_of_nonneg_right h2 h4)
    _ = br := Int.mul_ediv_cancel_left _ (by omega)

theorem turn_speed_eq (c : RaceConfig) (h : c.InBounds)
    (hsa : c.safe_angle < 35) (sv : Int) :
    c.turn_speed ⟨sv⟩ =
      some (c.max_speed -
        Int.tdiv ((max (min |sv| 35 - c.safe_angle) 0) *
          (c.max_speed - c.min_speed)) (35 - c.safe_angle)) := by
  have hms := h .MaxSpeed
  have hns := h .MinSpeed
  have hsf := h .SafeAngle
  simp only [RaceConfig.get, RaceConfigEntry.min, RaceConfigEntry.max]
    at hms hns hsf
  unfold RaceConfig.turn_speed
  simp only [Angle.MAX_STEER]
  rw [wrap16_eq_self (c.max_speed - c.min_speed) (by omega) (by omega)]
  rw [if_neg (by omega : ¬ (35 - c.safe_angle = 0))]
  have hsd :
      (if min (max sv (-35)) 35 < -c.safe_angle
        then -(min (max sv (-35)) 35 + c.safe_angle)
        else if min (max sv (-35)) 35 > c.safe_angle
          then min (max sv (-35)) 35 - c.safe_angle
          else 0) = max (min |sv| 35 - c.safe_angle) 0 := by
    rcases abs_cases sv with ⟨he, hs⟩ | ⟨he, hs⟩ <;> rw [he] <;>
      split_ifs <;> omega
  rw [hsd]
  have hd0 : 0 ≤ max (min |sv| 35 - c.safe_angle) 0 := le_max_right _ _
  have hdr : max (min |sv| 35 - c.safe_angle) 0 ≤ 35 - c.safe_angle := by
    rcases abs_cases sv with ⟨he, hs⟩ | ⟨he, hs⟩ <;> rw [he] <;> omega
  have hb := tdiv_natAbs_le (max (min |sv| 35 - c.safe_angle) 0)
    (c.max_speed - c.min_speed) (35 - c.safe_angle) hd0 hdr (by omega)
  have hb2 : (c.max_speed - c.min_speed).natAbs ≤ 9000 := by omega
  rw [wrap16_eq_self
    (Int.tdiv ((max (min |sv| 35 - c.safe_angle) 0) *
      (c.max_speed - c.min_speed)) (35 - c.safe_angle)) (by omega) (by omega)]
  rw [wrap16_eq_self _ (by omega) (by omega)]

/-- C5 counterexample: the claim asserts turn_speed never fails over all
in-bounds configurations, but safe_angle = 35 is in bounds (its maximum) and
makes steer_range zero, so the Rust division panics (modeled as none). -/
theorem C5_counterexample :
    RaceConfig.InBounds { boundedInit with safe_angle := 35 } ∧
    RaceConfig.turn_speed { boundedInit with safe_angle := 35 }
      Angle.ZERO = none := by
  constructor
  · decide
  · decide

/-- C5 amended: for every in-bounds configuration with safe_angle strictly
below MAX_STEER (35), turn_speed never fails and returns the clamped
symmetric linear interpolation: max_speed when the steer magnitude is within
safe_angle, min_speed when the clamped magnitude reaches MAX_STEER, and the
truncated linear ramp in between; the curve is symmetric in the steer sign.
At safe_angle = 35 (still in bounds) the division by zero makes it fail. -/
theorem C5_turn_speed (c : RaceConfig) (h : c.InBounds)
    (hsa : c.safe_angle < 35) (steer : Angle) :
    (c.turn_speed steer =
      some (c.max_speed -
        Int.tdiv ((max (min |steer.value| 35 - c.safe_angle) 0) *
          (c.max_speed - c.min_speed)) (35 - c.safe_angle))) ∧
    (|steer.value| ≤ c.safe_angle → c.turn_speed steer = some c.max_speed) ∧
    (35 ≤ |steer.value| → c.turn_speed steer = some c.min_speed) ∧
    c.turn_speed (Angle.neg steer) = c.turn_speed steer := by
  have hsf := h .SafeAngle
  simp only [RaceConfig.get, RaceConfigEntry.min, RaceConfigEntry.max] at hsf
  have h1 := turn_speed_eq c h hsa steer.value
  have hsteer : (⟨steer.value⟩ : Angle) = steer := rfl
  rw [hsteer] at h1
  refine ⟨h1, fun hle => ?_, fun hge => ?_, ?_⟩
  · rw [h1]
    have : max (min |steer.value| 35 - c.safe_angle) 0 = 0 := by
      have := abs_nonneg steer.value
      omega
    rw [this, zero_mul, Int.zero_tdiv, sub_zero]
  · rw [h1]
    have : max (min |steer.value| 35 - c.safe_angle) 0 = 35 - c.safe_angle := by
      omega
    rw [this, Int.mul_tdiv_cancel_left _ (by omega : (35 : Int) - c.safe_angle ≠ 0)]
    norm_num
  · have h2 := turn_speed_eq c h hsa (-steer.value)
    have hneg : (Angle.neg steer) = ⟨-steer.value⟩ := rfl
    rw [hneg, h2, h1, abs_neg]

/-- C8 counterexample: the claim asserts climb_power_boost never fails for
positive pitch over all in-bounds configurations, but climbing_angle = 5 and
climbing_ignore = 5 are both in bounds and make pitch_range zero, so the
Rust division panics (modeled as none). -/
theorem C8_counterexample :
    RaceConfig.InBounds
      { boundedInit with climbing_angle := 5, climbing_ignore := 5 } ∧
    RaceConfig.climb_power_boost
      { boundedInit with climbing_angle := 5, climbing_ignore := 5 }
      ⟨1⟩ = none := by
  constructor
  · decide
  · decide

/-- C8 amended: for every in-bounds configuration with
climbing_ignore < climbing_angle and max_speed ≤ climbing_speed,
climb_power_boost returns exactly 0 for every pitch ≤ 0, and for positive
pitch it never fails and returns a value in [0, climbing_speed - max_speed];
configurations with climbing_ignore = climbing_angle (still in bounds) make
it fail by division by zero. -/
theorem C8_climb_power_boost (c : RaceConfig) (h : c.InBounds)
    (hia : c.climbing_ignore < c.climbing_angle)
    (hcm : c.max_speed ≤ c.climbing_speed) (pitch : Angle) :
    (pitch.value ≤ 0 → c.climb_power_boost pitch = some 0) ∧
    (0 < pitch.value → ∃ r, c.climb_power_boost pitch = some r ∧
      0 ≤ r ∧ r ≤ c.climbing_speed - c.max_speed) := by
  have hcs := h .ClimbingSpeed
  have hmx := h .MaxSpeed
  have hca := h .ClimbingAngle
  have hci := h .ClimbingIgnore
  simp only [RaceConfig.get, RaceConfigEntry.min, RaceConfigEntry.max]
    at hcs hmx hca hci
  constructor
  · intro hle
    unfold RaceConfig.climb_power_boost
    rw [if_pos]
    exact hle
  · intro hpos
    unfold RaceConfig.climb_power_boost
    rw [if_neg (by simp only [Angle.ZERO]; omega)]
    rw [wrap16_eq_self (c.climbing_speed - c.max_speed) (by omega) (by omega)]
    rw [wrap16_eq_self (c.climbing_angle - c.climbing_ignore) (by omega)
      (by omega)]
    rw [if_neg (by omega : ¬ (c.climbing_angle - c.climbing_ignore = 0))]
    set pd := max (min (pitch.value - c.climbing_ignore)
      (c.climbing_angle - c.climbing_ignore)) 0 with hpd
    have hpd0 : 0 ≤ pd := le_max_right _ _
    have hpdr : pd ≤ c.climbing_angle - c.climbing_ignore := by
      rw [hpd]; omega
    have hb0 : 0 ≤ Int.tdiv (pd * (c.climbing_speed - c.max_speed))
        (c.climbing_angle - c.climbing_ignore) :=
      Int.tdiv_nonneg (mul_nonneg hpd0 (by omega)) (by omega)
    have hb1 := tdiv_mul_le pd (c.climbing_angle - c.climbing_ignore)
      (c.climbing_speed - c.max_speed) hpd0 hpdr (by omega) (by omega)
    refine ⟨_, rfl, ?_, ?_⟩
    · rw [wrap16_eq_self _ (by omega) (by omega)]
      omega
    · rw [wrap16_eq_self _ (by omega) (by omega)]
      omega

/-- C8 witness: at the in-bounds default variant, pitch 0 gives exactly 0
and pitch 20 a boost within [0, climbing_speed - max_speed]. -/
theorem C8_witness :
    RaceConfig.climb_power_boost boundedInit ⟨0⟩ = some 0 ∧
    ∃ r, RaceConfig.climb_power_boost boundedInit ⟨20⟩ = some r ∧
      0 ≤ r ∧ r ≤ boundedInit.climbing_speed - boundedInit.max_speed :=
  ⟨(C8_climb_power_boost boundedInit (by decide) (by decide) (by decide)
      ⟨0⟩).1 (by decide),
    (C8_climb_power_boost boundedInit (by decide) (by decide) (by decide)
      ⟨20⟩).2 (by decide)⟩

/-- C5 witness: at the in-bounds default variant (safe_angle 10), a steer of
0 gives max_speed and a steer of 40 (clamped to 35) gives min_speed. -/
theorem C5_witness :
    RaceConfig.turn_speed boundedInit ⟨0⟩ = some boundedInit.max_speed ∧
    RaceConfig.turn_speed boundedInit ⟨40⟩ = some boundedInit.min_speed :=
  ⟨(C5_turn_speed boundedInit (by decide) (by decide) ⟨0⟩).2.1 (by decide),
    (C5_turn_speed boundedInit (by decide) (by decide) ⟨40⟩).2.2.1
      (by decide)⟩

/-! ## Claim C9: entry cycling -/

/-- C9: start().prev() is the last real entry (UseColorInversion, the
immediate predecessor of the End sentinel); iterating next() from start()
exactly 25 times (the number of real entries) returns to start(); and for
every entry other than End, neither next() nor prev() yields End. -/
theorem C9_entry_cycling :
    RaceConfigEntry.start.prev = RaceConfigEntry.UseColorInversion ∧
    RaceConfigEntry.next^[25] RaceConfigEntry.start = RaceConfigEntry.start ∧
    (∀ e : RaceConfigEntry,
      e = RaceConfigEntry.End ∨
        (e.next ≠ RaceConfigEntry.End ∧ e.prev ≠ RaceConfigEntry.End)) := by
  set_option maxRecDepth 4000 in decide

/-! ## Vision fusion engine (src/vision.rs)

Rust fixed-size arrays are modeled as lists; out-of-range indexing uses a
default element at call sites where the source index is always in range.
u16 arithmetic wraps (release semantics), made explicit by u16cast. -/

/-- The 8-channel raw distance snapshot (the timestamp and dt fields of the
source struct are not consumed by the modeled core and are omitted). -/
structure RawLaserReadings where
  values : List Int

/-- One logical laser position (LaserData). -/
structure LaserData where
  upper : Int
  lower : Int
  sign : Int
  position : LaserSidePosition
  status : LaserStatus
  slope : Bool
deriving DecidableEq, Repr

/-- LaserData::new. -/
def LaserData.new (sign : Int) (position : LaserSidePosition) : LaserData where
  upper := LASER_OVERFLOW
  lower := LASER_OVERFLOW
  sign := sign
  position := position
  status := .Overflow
  slope := false

/-- LaserData::value: the overflow constant when slope, else the minimum of
the two physical readings. -/
def LaserData.value (l : LaserData) : Int :=
  if l.slope then LASER_OVERFLOW else min l.lower l.upper

/-- LaserData::update: reread the two physical channels, detect the slope
band, reclassify the status. -/
def LaserData.update (l : LaserData) (raw : RawLaserReadings)
    (config : RaceConfig) : LaserData :=
  let lower := raw.values.getD (l.position.physical_index l.sign false) 0
  let upper := raw.values.getD (l.position.physical_index l.sign true) 0
  let slope_delta := u16cast config.slope_distance_delta
  let slope := decide (upper ≤ u16cast (lower + slope_delta)) &&
               decide (u16cast (lower + slope_delta / 2) ≤ upper)
  let l1 := { l with lower := lower, upper := upper, slope := slope }
  { l1 with
      status :=
        if slope then .Overflow
        else LaserStatus.from_value l1.value l1.position config }

/-- The 5 logical lasers in fixed left-to-right order. -/
structure Vision where
  lasers : List LaserData
deriving DecidableEq, Repr

/-- Vision::new. -/
def Vision.new : Vision where
  lasers := [
    LaserData.new (-1) .Side60,
    LaserData.new (-1) .Side30,
    LaserData.new 0 .Center,
    LaserData.new 1 .Side30,
    LaserData.new 1 .Side60]

/-- Vision::update: recompute every laser in place. -/
def Vision.update (v : Vision) (raw : RawLaserReadings)
    (config : RaceConfig) : Vision where
  lasers := v.lasers.map (fun l => l.update raw config)

/-- Array indexing into the laser array (always in range in the source). -/
def Vision.laserAt (v : Vision) (i : Nat) : LaserData :=
  v.lasers.getD i (LaserData.new 0 .Center)

/-- Vision::find_best_index: index of the maximum value, first wins ties. -/
def Vision.find_best_index (v : Vision) : Nat :=
  ((v.lasers.map LaserData.value).enum.foldl
    (fun best cur => if cur.2 > best.2 then cur else best)
    ((0 : Nat), (0 : Int))).1

/-- The left half of Vision::find_open_window: walk left from the best
index while the neighbor status is ok. -/
def Vision.scanLeft (v : Vision) : Nat → Nat
  | 0 => 0
  | i + 1 => if (v.laserAt i).status.is_ok then v.scanLeft i else i + 1

/-- The right half of Vision::find_open_window, recursing on the remaining
iteration count NUM_LASER_POSITIONS - 1 - i of the source while loop. -/
def Vision.scanRightFuel (v : Vision) : Nat → Nat → Nat
  | 0, i => i
  | fuel + 1, i =>
      if (v.laserAt (i + 1)).status.is_ok then v.scanRightFuel fuel (i + 1)
      else i

/-- The right half of Vision::find_open_window: walk right from the best
index while the neighbor status is ok (the loop runs while
i < NUM_LASER_POSITIONS - 1, hence that many remaining steps). -/
def Vision.scanRight (v : Vision) (i : Nat) : Nat :=
  v.scanRightFuel (NUM_LASER_POSITIONS - 1 - i) i

/-- Vision::find_open_window. -/
def Vision.find_open_window (v : Vision) (best_index : Nat) : Nat × Nat :=
  (v.scanLeft best_index, v.scanRight best_index)

/-- Vision::sensor_angle: the fixed angle of each logical index; indices
past 4 panic in the source (none). -/
def Vision.sensor_angle (index : Nat) : Option Angle :=
  match index with
  | 0 => some Angle.SLL
  | 1 => some Angle.SL
  | 2 => some Angle.SC
  | 3 => some Angle.SR
  | 4 => some Angle.SRR
  | _ => none

/-- weighted_average: the non-normalized weighted average and the weight
sum, with the degenerate small-N and zero-sum cases of the source. -/
def weighted_average (values : List Int) : Int × Int :=
  let N := values.length
  if N < 1 then (0, 1)
  else if N < 2 then (0, values.headI)
  else
    let sum := values.sum
    if sum = 0 then (0, 1)
    else
      let center_double : Int := (N : Int) - 1
      let average := values.enum.foldl
        (fun result p => result + p.2 * ((p.1 : Int) * 2 - center_double)) 0
      (Int.tdiv average center_double, sum)

/-- interpolate: weighted centroid between two bounding angles. The Rust
division panics when the weight sum is zero (reachable only through the
single-element zero-value corner), hence the Option result. -/
def interpolate (weights : List Int) (a b : Angle) : Option Angle :=
  let f := a.value
  let t := b.value
  let wa := weighted_average weights
  let middle2 := f + t
  let side2 := t - f
  if wa.2 = 0 then none
  else
    let normalized_side2 := Int.tdiv (wa.1 * side2) wa.2
    let normalized2 := middle2 + normalized_side2
    let normalized := Int.tdiv normalized2 2
    some (Angle.fromInt normalized)

/-- Vision::compute_target_simple: unwindowed 5-wide interpolation. -/
def Vision.compute_target_simple (v : Vision) :
    Option (Angle × Nat × LaserStatus × Option (Nat × Nat)) := do
  let target ← interpolate [
    (v.laserAt 0).value,
    (v.laserAt 1).value,
    (v.laserAt 2).value,
    (v.laserAt 3).value,
    (v.laserAt 4).value] Angle.SLL Angle.SRR
  let index :=
    if target.value < (Angle.SL.sub Angle.SHALF).value then LILL
    else if target.value < Angle.SHALF.value then LIL
    else if target.value > (Angle.SR.add Angle.SHALF).value then LIRR
    else if target.value > Angle.SHALF.value then LIL
    else LIC
  pure (target, index, (v.laserAt index).status, none)

/-- Vision::find_best_extreme: extreme angle fallback when blocked. -/
def Vision.find_best_extreme (v : Vision) (best_index : Nat) :
    Option Angle :=
  if best_index < LIC then some Angle.SLL
  else if best_index > LIC then some Angle.SRR
  else do
    let r ← v.compute_target_simple
    if r.1.value < Angle.ZERO.value then pure Angle.SLL else pure Angle.SRR

/-- Vision::compute_target_with_windows: grow a window of ok statuses
around the best sensor and interpolate across it; fall back to an extreme
angle when the best sensor is blocked. The impossible window lengths panic
in the source (none). -/
def Vision.compute_target_with_windows (v : Vision) :
    Option (Angle × Nat × LaserStatus × Option (Nat × Nat)) :=
  let best_index := v.find_best_index
  let best_status := (v.laserAt best_index).status
  if best_status.is_ok then
    let wl := (v.find_open_window best_index).1
    let wr := (v.find_open_window best_index).2
    let window := (v.lasers.drop wl).take (wr - wl + 1)
    let ws := window.map LaserData.value
    let targetOpt : Option Angle :=
      match window.length with
      | 1 => Vision.sensor_angle best_index
      | 2 | 3 | 4 | 5 => do
          let f ← Vision.sensor_angle wl
          let t ← Vision.sensor_angle wr
          interpolate ws f t
      | _ => none
    targetOpt.map (fun target => (target, best_index, best_status, some (wl, wr)))
  else
    (v.find_best_extreme best_index).map
      (fun target => (target, best_index, best_status, none))

/-- Vision::compute_target. -/
def Vision.compute_target (v : Vision) :
    Option (Angle × Nat × LaserStatus × Option (Nat × Nat)) :=
  v.compute_target_with_windows

/-- Vision::detect_back_panic: any sensor below its back distance. -/
def Vision.detect_back_panic (v : Vision) (config : RaceConfig) : Bool :=
  decide ((v.laserAt LILL).value < u16cast config.back_distance_side_60) ||
  decide ((v.laserAt LIRR).value < u16cast config.back_distance_side_60) ||
  decide ((v.laserAt LIL).value < u16cast config.back_distance_side_30) ||
  decide ((v.laserAt LIR).value < u16cast config.back_distance_side_30) ||
  decide ((v.laserAt LIC).value < u16cast config.back_distance_center)

/-! ## Claim C6: uniform readings and the interpolation midpoint -/

theorem interpolate_const5 (v : Int) :
    interpolate [v, v, v, v, v] Angle.SLL Angle.SRR = some Angle.ZERO := by
  unfold interpolate weighted_average
  simp only [List.length_cons, List.length_nil, List.sum_cons, List.sum_nil,
    List.enum, List.enumFrom, List.foldl, Angle.SLL, Angle.SRR, Angle.ZERO]
  norm_num
  by_cases h : v + (v + (v + (v + v))) = 0
  · simp only [h, if_pos rfl]
    norm_num
    rw [fromInt_small 0 (by norm_num) (by norm_num)]
  · rw [if_neg h]
    norm_num
    exact ⟨h, fromInt_small 0 (by norm_num) (by norm_num)⟩

/-- C6 counterexample: at the default configuration, raw readings of 200 on
all 8 channels make every laser report the identical non-overflow value 200
with slope false, yet compute_target returns -45, not Angle::ZERO: the
center laser is only in Alert status, so the ok-window is the two leftmost
lasers and the interpolation midpoint is their centroid. -/
theorem C6_counterexample :
    ((Vision.update Vision.new ⟨List.replicate 8 200⟩
        RaceConfig.init).lasers.all
      (fun l => l.value == 200 && !l.slope)) = true ∧
    ((Vision.update Vision.new ⟨List.replicate 8 200⟩
        RaceConfig.init).compute_target_with_windows).map (fun r => r.1) ≠
      some Angle.ZERO := by
  constructor
  · decide
  · have h : ((Vision.update Vision.new ⟨List.replicate 8 200⟩
        RaceConfig.init).compute_target_with_windows).map (fun r => r.1) =
          some (Angle.fromInt (-45)) := rfl
    rw [h, fromInt_small (-45) (by norm_num) (by norm_num)]
    decide

/-- C6 amended: if all 5 lasers report the same value v below the overflow
constant AND every laser status is ok (v above every per-position alert
distance), compute_target() returns Angle::ZERO; when some laser is not ok
(as with uniform 200 at the default configuration) the window shrinks and
the target need not be zero. -/
theorem C6_uniform (vis : Vision) (v : Int)
    (hlen : vis.lasers.length = 5)
    (hval : ∀ l ∈ vis.lasers, l.value = v ∧ l.status.is_ok = true)
    (hv : v < 1200) :
    (vis.compute_target_with_windows).map (fun r => r.1) =
      some Angle.ZERO := by
  obtain ⟨ls⟩ := vis
  match ls, hlen with
  | [a, b, c, d, e], _ =>
  simp only [Vision.lasers] at hval
  have ha := hval a (by simp)
  have hb := hval b (by simp)
  have hc := hval c (by simp)
  have hd := hval d (by simp)
  have he := hval e (by simp)
  have hbest : Vision.find_best_index ⟨[a, b, c, d, e]⟩ = 0 := by
    simp only [Vision.find_best_index, Vision.lasers, List.map, ha.1, hb.1,
      hc.1, hd.1, he.1, List.enum, List.enumFrom, List.foldl]
    by_cases h0 : v > 0 <;> simp [h0]
  have hwin : Vision.find_open_window ⟨[a, b, c, d, e]⟩ 0 = (0, 4) := by
    simp [Vision.find_open_window, Vision.scanLeft, Vision.scanRight,
      Vision.scanRightFuel, Vision.laserAt, hb.2, hc.2, hd.2, he.2,
      NUM_LASER_POSITIONS]
  simp only [Vision.compute_target_with_windows, hbest, hwin,
    Vision.laserAt, Vision.lasers, List.getD, List.get?, ha.2, if_pos,
    List.drop, List.take, List.map, List.length_cons, List.length_nil,
    ha.1, hb.1, hc.1, hd.1, he.1, Vision.sensor_angle]
  norm_num
  rw [interpolate_const5, if_pos ha.2]
  exact ⟨0, a.status, some (0, 4), rfl⟩

/-- C6 witness: uniform raw readings of 400 at the default configuration
leave every laser ok with value 400, and the computed target is zero. -/
theorem C6_witness :
    ((Vision.update Vision.new ⟨List.replicate 8 400⟩
        RaceConfig.init).compute_target_with_windows).map (fun r => r.1) =
      some Angle.ZERO :=
  C6_uniform _ 400 (by decide) (by decide) (by decide)

/-! ## Trace recorder (src/trace.rs)

The trace module names its second ring index end, a reserved word here, so
the field is called stop. The fixed 3000-slot array is modeled as a
function from slot index to event. -/

def TRACE_EVENTS : Nat := 3000

/-- One tick diagnostic snapshot (TraceEvent). -/
structure TraceEvent where
  absolute_heading : Angle
  track_heading : Angle
  steer : Angle
  speed : Int
  roll : Angle
  pitch : Angle
  yaw : Angle
  forward : Int
  side : Int
  vertical : Int
  has_back_panic : Bool
  remaining_back_panic_ms : Int
  has_target : Bool
  remaining_target_ms : Int
  target : Angle
  target_back : Bool
  stillness_ms : Int
  dt_us : Int

/-- EMPTY_EVENT: the all-zero slot filler. -/
def EMPTY_EVENT : TraceEvent where
  absolute_heading := Angle.ZERO
  track_heading := Angle.ZERO
  steer := Angle.ZERO
  speed := 0
  roll := Angle.ZERO
  pitch := Angle.ZERO
  yaw := Angle.ZERO
  forward := 0
  side := 0
  vertical := 0
  has_back_panic := false
  remaining_back_panic_ms := 0
  has_target := false
  remaining_target_ms := 0
  target := Angle.ZERO
  target_back := false
  stillness_ms := 0
  dt_us := 0

/-- TraceData: ring buffer with start/end indices over 3000 slots. -/
structure TraceData where
  start : Nat
  stop : Nat
  events : Nat → TraceEvent

/-- TraceData::clear. -/
def TraceData.clear (td : TraceData) : TraceData :=
  { td with start := 0, stop := 0 }

/-- TraceData::push: write at end, advance end, evict the oldest slot by
advancing start when the ring would close. -/
def TraceData.push (td : TraceData) (event : TraceEvent) : TraceData :=
  let new_end := (td.stop + 1) % TRACE_EVENTS
  let start' := if td.start = new_end then (td.start + 1) % TRACE_EVENTS
                else td.start
  { start := start',
    stop := new_end,
    events := fun i => if i = td.stop then event else td.events i }

/-- The number of live events in the ring window. -/
def TraceData.count (td : TraceData) : Nat :=
  (td.stop + TRACE_EVENTS - td.start) % TRACE_EVENTS

/-- The live events in order from start to end: exactly the slots that
TraceData::print traverses. -/
def TraceData.contents (td : TraceData) : List TraceEvent :=
  (List.range td.count).map (fun i => td.events ((td.start + i) % TRACE_EVENTS))

/-- The initial buffer of trace_task: empty window over empty slots. -/
def emptyTraceData : TraceData where
  start := 0
  stop := 0
  events := fun _ => EMPTY_EVENT

/-- Push a whole list of events in order. -/
def TraceData.pushMany (td : TraceData) (evs : List TraceEvent) : TraceData :=
  evs.foldl TraceData.push td

/-! ## Claim C7: ring-buffer eviction -/

set_option maxRecDepth 10000 in
theorem contents_push (td : TraceData) (e : TraceEvent)
    (hs : td.start < TRACE_EVENTS) (ht : td.stop < TRACE_EVENTS) :
    (td.push e).contents =
      (if td.count = TRACE_EVENTS - 1 then td.contents.drop 1
       else td.contents) ++ [e] := by
  unfold TraceData.push TraceData.contents TraceData.count TRACE_EVENTS at *
  dsimp only
  by_cases hc : (td.stop + 3000 - td.start) % 3000 = 2999
  · rw [if_pos hc]
    have hse : td.start = (td.stop + 1) % 3000 := by omega
    rw [if_pos hse]
    have hcount : ((td.stop + 1) % 3000 + 3000 - (td.start + 1) % 3000) % 3000
        = 2999 := by omega
    rw [hcount, hc]
    have h2999 : (2999 : Nat) = 2998 + 1 := rfl
    conv_lhs => rw [h2999, List.range_succ, List.map_append]
    conv_rhs => rw [h2999, List.range_succ_eq_map, List.map_cons,
      List.drop_one, List.tail_cons, List.map_map]
    congr 1
    · apply List.map_congr_left
      intro i hi
      simp only [List.mem_range] at hi
      simp only [Function.comp]
      rw [if_neg (by omega)]
      congr 1
      omega
    · simp only [List.map_cons, List.map_nil]
      rw [if_pos (by omega)]
  · rw [if_neg hc]
    have hse : ¬ (td.start = (td.stop + 1) % 3000) := by omega
    rw [if_neg hse]
    have hcount : ((td.stop + 1) % 3000 + 3000 - td.start) % 3000 =
        (td.stop + 3000 - td.start) % 3000 + 1 := by omega
    rw [hcount, List.range_succ, List.map_append]
    congr 1
    · apply List.map_congr_left
      intro i hi
      simp only [List.mem_range] at hi
      rw [if_neg (by omega)]
    · simp only [List.map_cons, List.map_nil]
      rw [if_pos (by omega)]

theorem contents_length (td : TraceData) : td.contents.length = td.count := by
  simp [TraceData.contents]

theorem pushMany_spec (evs : List TraceEvent) :
    (emptyTraceData.pushMany evs).start < TRACE_EVENTS ∧
    (emptyTraceData.pushMany evs).stop < TRACE_EVENTS ∧
    (emptyTraceData.pushMany evs).contents =
      evs.drop (evs.length + 1 - TRACE_EVENTS) := by
  induction evs using List.reverseRecOn with
  | nil =>
      refine ⟨by decide, by decide, ?_⟩
      simp [TraceData.pushMany, emptyTraceData, TraceData.contents,
        TraceData.count]
  | append_singleton evs x ih =>
      obtain ⟨ih1, ih2, ih3⟩ := ih
      have hpm : emptyTraceData.pushMany (evs ++ [x]) =
          (emptyTraceData.pushMany evs).push x := by
        unfold TraceData.pushMany
        rw [List.foldl_append]
        rfl
      have hcnt : (emptyTraceData.pushMany evs).count =
          evs.length - (evs.length + 1 - TRACE_EVENTS) := by
        rw [← contents_length, ih3, List.length_drop]
      rw [hpm]
      refine ⟨?_, ?_, ?_⟩
      · unfold TraceData.push
        unfold TRACE_EVENTS at ih1 ih2 ⊢
        dsimp only
        split_ifs <;> omega
      · unfold TraceData.push
        unfold TRACE_EVENTS at ih1 ih2 ⊢
        dsimp only
        omega
      · rw [contents_push _ _ ih1 ih2, ih3]
        unfold TRACE_EVENTS at *
        by_cases hk : evs.length ≤ 2998
        · rw [if_neg (by omega)]
          have h1 : evs.length + 1 - 3000 = 0 := by omega
          have h2 : (evs ++ [x]).length + 1 - 3000 = 0 := by
            simp only [List.length_append, List.length_cons, List.length_nil]
            omega
          rw [h1, h2, List.drop_zero, List.drop_zero]
        · rw [if_pos (by omega)]
          rw [List.drop_drop]
          have h2 : (evs ++ [x]).length + 1 - 3000 =
              evs.length + 1 - 3000 + 1 := by
            simp only [List.length_append, List.length_cons, List.length_nil]
            omega
          rw [h2, List.drop_append_of_le_length (by omega)]

/-- C7 counterexample: pushing N+1 = 3001 distinct events into the empty
capacity-3000 TraceData leaves only 2999 events retrievable (not 3000), and
the first retrievable event is the third pushed one: the two oldest are
dropped, because the start==end encoding sacrifices one slot to tell full
from empty. -/
theorem C7_counterexample :
    (emptyTraceData.pushMany
      ((List.range 3001).map
        (fun i => { EMPTY_EVENT with speed := Int.ofNat i }))).contents.length
      = 2999 ∧
    (emptyTraceData.pushMany
      ((List.range 3001).map
        (fun i => { EMPTY_EVENT with speed := Int.ofNat i }))).contents.head?
      = some { EMPTY_EVENT with speed := 2 } ∧
    (2999 : Nat) ≠ 3000 := by
  have h := (pushMany_spec ((List.range 3001).map
    (fun i => { EMPTY_EVENT with speed := Int.ofNat i }))).2.2
  rw [h]
  refine ⟨?_, ?_, by decide⟩
  · simp [TRACE_EVENTS]
  · simp [TRACE_EVENTS, List.head?_drop]

/-- C7 amended: pushing any sequence of events into the empty capacity-N
TraceData (N = 3000 slots) leaves the most recent min(len, N-1) events
retrievable in order from start to end; in particular N+1 pushes retain the
N-1 most recent events and drop the two oldest (one slot is sacrificed to
distinguish a full ring from an empty one). -/
theorem C7_ring_eviction (evs : List TraceEvent) :
    (emptyTraceData.pushMany evs).contents =
      evs.drop (evs.length + 1 - TRACE_EVENTS) :=
  (pushMany_spec evs).2.2

/-! ## Race control loop (src/race.rs)

Durations are modeled in microseconds as Nat. One pass of the race loop
body (the per-tick control computation between two awaits) is raceStep: the
vision-derived signals (steering target, back-panic detection) and the
IMU-derived signals (headings, pitch, tilt alert, stillness) are the tick
inputs; UI, trace and motor outputs other than the (power, steer) action
are omitted side effects. -/

/-- Duration::from_millis of an i16 cast as u64, in microseconds. -/
def durFromMillis (ms : Int) : Nat :=
  (ms % (2 ^ 64)).toNat * 1000

/-- BackSteering: frozen reverse maneuver state. -/
structure BackSteering where
  remaining_time : Nat
  steer : Angle
deriving DecidableEq, Repr

/-- RouteTarget: timed go-back-then-return maneuver state. -/
structure RouteTarget where
  remaining_time : Nat
  go_back : Bool
  was_still : Bool
  start : Angle
  target : Angle
deriving DecidableEq, Repr

/-- RouteTarget::new_for_stillness. -/
def RouteTarget.new_for_stillness (config : RaceConfig)
    (current_heading : Angle) (target_delta : Angle) : RouteTarget where
  remaining_time := durFromMillis config.inversion_time
  go_back := true
  was_still := true
  start := current_heading
  target := current_heading.add target_delta

/-- RouteTarget::new_for_climbing. -/
def RouteTarget.new_for_climbing (config : RaceConfig)
    (current_heading : Angle) : RouteTarget where
  remaining_time := durFromMillis config.inversion_time
  go_back := true
  was_still := false
  start := current_heading
  target := config.climb_direction_angle

/-- RaceAction: the per-tick motor command. -/
structure RaceAction where
  power : Int
  steer : Angle
deriving DecidableEq, Repr

/-- The mutable loop state of the race function that persists across
ticks. -/
structure RaceState where
  remaining_sprint : Option Nat
  remaining_back_panic : Option BackSteering
  route_target : Option RouteTarget
deriving DecidableEq, Repr

/-- The per-tick inputs of the loop body: clock delta and the signals
derived from the vision and IMU mailboxes. -/
structure RaceTick where
  dt : Nat
  relative_target : Angle
  back_panic_detected : Bool
  tilt_alert : Bool
  stillness : Option Nat
  absolute_heading : Angle
  track_heading : Angle
  current_pitch : Angle
  simulate : Bool

/-- The tick steer: the vision target clamped to [MIN_STEER, MAX_STEER]. -/
def raceSteer (inp : RaceTick) : Angle :=
  (inp.relative_target.amin Angle.MAX_STEER).amax Angle.MIN_STEER

/-- The back-panic trigger: when no route target is active and the vision
detects back panic, arm a fresh BackSteering with the current steer frozen;
returns the is_in_back_panic flag and the armed state. -/
def panicTrigger (c : RaceConfig) (s : RaceState) (inp : RaceTick) :
    Bool × Option BackSteering :=
  if s.route_target = none ∧ inp.back_panic_detected = true then
    (true, some ⟨durFromMillis c.back_time, raceSteer inp⟩)
  else
    (false, s.remaining_back_panic)

/-- The stillness route trigger: outside simulation, with no route target
and no sprint left, sustained stillness arms a stillness recovery route. -/
def stillnessRoute (c : RaceConfig) (s : RaceState) (inp : RaceTick) :
    Option RouteTarget :=
  if s.route_target = none ∧ s.remaining_sprint = none ∧
      inp.simulate = false then
    match inp.stillness with
    | some ms =>
        if wrap16 (Int.ofNat ms) ≥ c.stillness_time then
          some (RouteTarget.new_for_stillness c inp.absolute_heading
            (if (raceSteer inp).value < Angle.ZERO.value then Angle.L45
             else Angle.R45))
        else s.route_target
    | none => s.route_target
  else s.route_target

/-- The climb-direction trigger: when enabled and climbing with the track
heading far from the configured climb direction, arm a climbing route. -/
def climbRoute (c : RaceConfig) (s : RaceState) (inp : RaceTick)
    (rt : Option RouteTarget) : Option RouteTarget :=
  if c.use_climb_direction_flag = true ∧
      c.detect_climb inp.current_pitch = true ∧
      ((inp.track_heading.sub c.climb_direction_angle).abs).value >
        Angle.R100.value then
    some (RouteTarget.new_for_climbing c inp.absolute_heading)
  else rt

/-- One pass of the race loop body: the trigger updates followed by the
priority chain tilt-alert, back-panic, route-target, sprint, normal. The
normal branch calls the two fallible speed curves, hence the Option. -/
def raceStep (c : RaceConfig) (s : RaceState) (inp : RaceTick) :
    Option (RaceState × RaceAction) :=
  let steer := raceSteer inp
  let pt := panicTrigger c s inp
  let is_in_back_panic := pt.1
  let rbp := pt.2
  let rt := climbRoute c s inp (stillnessRoute c s inp)
  if inp.tilt_alert then
    some ({ remaining_sprint := s.remaining_sprint,
            remaining_back_panic := rbp,
            route_target := rt },
          ⟨0, Angle.ZERO⟩)
  else
    match rbp with
    | some back_steering =>
        let rbp' :=
          if back_steering.remaining_time > inp.dt then
            some { back_steering with
                     remaining_time := back_steering.remaining_time - inp.dt }
          else none
        some ({ remaining_sprint := none,
                remaining_back_panic := rbp',
                route_target := rt },
              ⟨wrap16 (-c.back_speed),
               if is_in_back_panic then back_steering.steer.neg
               else Angle.ZERO⟩)
    | none =>
        match rt with
        | some target =>
            let delta := target.target.sub inp.absolute_heading
            if |delta.value| < 10 then
              some ({ remaining_sprint := none,
                      remaining_back_panic := none,
                      route_target := none },
                    ⟨0, Angle.ZERO⟩)
            else
              let steer2 := (delta.amin Angle.MAX_STEER).amax Angle.MIN_STEER
              let new_target :=
                if target.remaining_time > inp.dt then
                  { target with
                      remaining_time := target.remaining_time - inp.dt }
                else
                  { target with
                      remaining_time := durFromMillis c.inversion_time,
                      go_back := !target.go_back }
              some ({ remaining_sprint := none,
                      remaining_back_panic := none,
                      route_target := some new_target },
                    if new_target.go_back then ⟨c.back_speed, steer2.neg⟩
                    else ⟨c.max_speed, steer2⟩)
        | none =>
            match s.remaining_sprint with
            | some sprint =>
                some ({ remaining_sprint :=
                          if sprint > inp.dt then some (sprint - inp.dt)
                          else none,
                        remaining_back_panic := none,
                        route_target := none },
                      ⟨c.sprint_speed, steer⟩)
            | none => do
                let ts ← c.turn_speed steer
                let cb ← c.climb_power_boost inp.current_pitch
                some ({ remaining_sprint := none,
                        remaining_back_panic := none,
                        route_target := none },
                      ⟨wrap16 (ts + cb), steer⟩)

/-! ## Claims C2 and C10: back-panic timing and sprint retirement -/

/-- A configuration for the concrete back-panic run, with the climb
direction correction disabled so the tick computation is closed under
evaluation. -/
def c2cfg : RaceConfig := { RaceConfig.init with use_climb_direction := 0 }

/-- First tick: back panic detected, steering target 10 degrees. -/
def c2tick1 : RaceTick where
  dt := 1000
  relative_target := ⟨10⟩
  back_panic_detected := true
  tilt_alert := false
  stillness := none
  absolute_heading := ⟨0⟩
  track_heading := ⟨0⟩
  current_pitch := ⟨0⟩
  simulate := false

/-- Second tick: identical, but the back-panic detection has cleared. -/
def c2tick2 : RaceTick := { c2tick1 with back_panic_detected := false }

/-- C2 counterexample: back panic triggers on tick 1 (steer frozen at 10,
output steer -10, power -back_speed). On tick 2 the panic state is still
armed with 99000 microseconds left (back_time has not elapsed), but because
detect_back_panic is no longer firing the loop outputs steer ZERO, not the
inverted frozen steer -10 that the claim predicts. -/
theorem C2_counterexample :
    raceStep c2cfg ⟨some 100000, none, none⟩ c2tick1 =
      some (⟨none, some ⟨99000, ⟨10⟩⟩, none⟩, ⟨-5000, ⟨-10⟩⟩) ∧
    raceStep c2cfg ⟨none, some ⟨99000, ⟨10⟩⟩, none⟩ c2tick2 =
      some (⟨none, some ⟨98000, ⟨10⟩⟩, none⟩, ⟨-5000, ⟨0⟩⟩) ∧
    (⟨0⟩ : Angle) ≠ (⟨10⟩ : Angle).neg := by
  refine ⟨by decide, by decide, by decide⟩

/-- C2 amended: with tilt alert off, (a) on the tick where back panic
triggers (no route target, detection firing) the loop outputs power
-back_speed and steer equal to the negation of the steer frozen at that
moment, arming a back_time countdown reduced by dt (already released if
back_time does not exceed dt); (b) on a tick where the armed panic persists
but detection is not firing, the loop outputs power -back_speed and steer
ZERO (not the inverted frozen steer), decrements the countdown by dt, and
releases the panic state on the first tick where the remaining time does
not exceed dt. If detection fires again the panic state is re-armed afresh
as in (a). -/
theorem C2_back_panic (c : RaceConfig) (s : RaceState) (inp : RaceTick)
    (hb : c.InBounds) (htilt : inp.tilt_alert = false) :
    (s.route_target = none → inp.back_panic_detected = true →
      raceStep c s inp = some (
        { remaining_sprint := none,
          remaining_back_panic :=
            if durFromMillis c.back_time > inp.dt then
              some ⟨durFromMillis c.back_time - inp.dt, raceSteer inp⟩
            else none,
          route_target := climbRoute c s inp (stillnessRoute c s inp) },
        ⟨-c.back_speed, (raceSteer inp).neg⟩)) ∧
    (∀ bs, s.remaining_back_panic = some bs →
      inp.back_panic_detected = false →
      raceStep c s inp = some (
        { remaining_sprint := none,
          remaining_back_panic :=
            if bs.remaining_time > inp.dt then
              some ⟨bs.remaining_time - inp.dt, bs.steer⟩
            else none,
          route_target := climbRoute c s inp (stillnessRoute c s inp) },
        ⟨-c.back_speed, Angle.ZERO⟩)) := by
  have hbsp := hb .BackSpeed
  simp only [RaceConfig.get, RaceConfigEntry.min, RaceConfigEntry.max] at hbsp
  have hw : wrap16 (-c.back_speed) = -c.back_speed :=
    wrap16_eq_self _ (by omega) (by omega)
  constructor
  · intro hrt hdet
    have hpt : panicTrigger c s inp =
        (true, some ⟨durFromMillis c.back_time, raceSteer inp⟩) := by
      simp [panicTrigger, hrt, hdet]
    unfold raceStep
    simp only [hpt, htilt, Bool.false_eq_true, if_false, hw]
    rfl
  · intro bs hbs2 hdet
    have hpt : panicTrigger c s inp = (false, s.remaining_back_panic) := by
      simp [panicTrigger, hdet]
    unfold raceStep
    simp only [hpt, hbs2, htilt, Bool.false_eq_true, if_false, hw]

/-- C2 witness: a concrete triggering tick at an in-bounds configuration:
the output is (-back_speed, inverted frozen steer) and a fresh countdown. -/
theorem C2_witness :
    raceStep boundedInit ⟨some 100000, none, none⟩ c2tick1 =
      some (
        { remaining_sprint := none,
          remaining_back_panic :=
            if durFromMillis boundedInit.back_time > c2tick1.dt then
              some ⟨durFromMillis boundedInit.back_time - c2tick1.dt,
                raceSteer c2tick1⟩
            else none,
          route_target := climbRoute boundedInit ⟨some 100000, none, none⟩
            c2tick1
            (stillnessRoute boundedInit ⟨some 100000, none, none⟩ c2tick1) },
        ⟨-boundedInit.back_speed, (raceSteer c2tick1).neg⟩) :=
  (C2_back_panic boundedInit ⟨some 100000, none, none⟩ c2tick1 (by decide)
    rfl).1 rfl rfl

/-- C10: whenever a tick with tilt alert off takes the back-panic branch
(armed panic state) or the route-target branch (active route), the new
remaining_sprint is None; and remaining_sprint is absorbing at None: once
None it is None after every subsequent tick, so the start-of-session sprint
never resumes after a back-panic or route-target maneuver has run. -/
theorem C10_sprint_retirement (c : RaceConfig) (s : RaceState)
    (inp : RaceTick) (out : RaceState × RaceAction)
    (h : raceStep c s inp = some out) :
    (inp.tilt_alert = false →
      ((panicTrigger c s inp).2 ≠ none ∨
        climbRoute c s inp (stillnessRoute c s inp) ≠ none) →
      out.1.remaining_sprint = none) ∧
    (s.remaining_sprint = none → out.1.remaining_sprint = none) := by
  unfold raceStep at h
  dsimp only at h
  by_cases ht : inp.tilt_alert
  · rw [if_pos ht] at h
    simp only [Option.some.injEq] at h
    subst h
    exact ⟨fun ht' _ => absurd ht (by simp [ht']), fun hs => hs⟩
  · rw [if_neg ht] at h
    rcases hp : (panicTrigger c s inp).2 with _ | bs <;> rw [hp] at h
    · rcases hr : climbRoute c s inp (stillnessRoute c s inp) with _ | tg <;>
        rw [hr] at h
      · rcases hsp : s.remaining_sprint with _ | sp <;> rw [hsp] at h
        · refine ⟨fun _ hbr => ?_, fun _ => ?_⟩
          · rcases hbr with h1 | h2
            · exact absurd rfl h1
            · exact absurd rfl h2
          · rcases hts : RaceConfig.turn_speed c (raceSteer inp) with _ | ts <;>
              rw [hts] at h
            · simp at h
            · rcases hcb : RaceConfig.climb_power_boost c inp.current_pitch
                with _ | cb <;> rw [hcb] at h
              · simp at h
              · simp only [Option.bind_eq_bind, Option.some_bind,
                  Option.some.injEq] at h
                subst h
                rfl
        · simp only [Option.some.injEq] at h
          subst h
          refine ⟨fun _ hbr => ?_, fun hs => ?_⟩
          · rcases hbr with h1 | h2
            · exact absurd rfl h1
            · exact absurd rfl h2
          · simp [hsp] at hs
      · dsimp only at h
        split at h <;> simp only [Option.some.injEq] at h <;> subst h <;>
          exact ⟨fun _ _ => rfl, fun _ => rfl⟩
    · simp only [Option.some.injEq] at h
      subst h
      exact ⟨fun _ _ => rfl, fun _ => rfl⟩

/-- C10 witness: the concrete triggering tick of the C2 run takes the
back-panic branch and retires the sprint. -/
theorem C10_witness :
    (raceStep c2cfg ⟨some 100000, none, none⟩ c2tick1 =
      some (⟨none, some ⟨99000, ⟨10⟩⟩, none⟩, ⟨-5000, ⟨-10⟩⟩)) ∧
    ((⟨none, some ⟨99000, ⟨10⟩⟩, none⟩, (⟨-5000, ⟨-10⟩⟩ : RaceAction)) :
        RaceState × RaceAction).1.remaining_sprint = none :=
  ⟨by decide,
    (C10_sprint_retirement c2cfg ⟨some 100000, none, none⟩ c2tick1 _
      (by decide)).1 rfl (Or.inl (by decide))⟩
